import Mathlib

/-!
Verification of the SO(3) rotation module (`gtsam/geometry/Rot3M.cpp`).

The C++ code is embedded shallowly over the real numbers: every `double`
becomes an `ℝ`, every formula is transcribed literally from the source,
branch conditions (tolerance comparisons) are kept as real comparisons,
and fallible operations return `Except`.  The dense-matrix primitive the
source consumes (multiplication, inverse, Cayley transform) is modelled
by an explicit 9-field matrix type `M3`.
-/

open Real

namespace Gtsam

noncomputable section

/-- External 3-point primitive: three real components, as consumed by the
source (`Point3` with accessors `x()/y()/z()`, scalar multiply and add). -/
@[ext] structure Point3 where
  x : ℝ
  y : ℝ
  z : ℝ

/-- Scalar multiplication on points, `p * s` in the source. -/
def Point3.smul (p : Point3) (s : ℝ) : Point3 :=
  ⟨p.x * s, p.y * s, p.z * s⟩

/-- Componentwise addition on points. -/
def Point3.add (p q : Point3) : Point3 :=
  ⟨p.x + q.x, p.y + q.y, p.z + q.z⟩

/-- External dynamic 3-vector primitive (`Vector`), used for tangent
vectors and angle triples. -/
@[ext] structure V3 where
  x : ℝ
  y : ℝ
  z : ℝ

/-- Scalar times vector, `magnitude * Vector_(3, ...)` in the source. -/
def V3.smul (v : V3) (s : ℝ) : V3 :=
  ⟨s * v.x, s * v.y, s * v.z⟩

/-- Componentwise division of a vector by a scalar, `w / t` in the source. -/
def V3.div (v : V3) (t : ℝ) : V3 :=
  ⟨v.x / t, v.y / t, v.z / t⟩

/-- Euclidean norm of a 3-vector, `w.norm()` in the source. -/
def V3.norm (v : V3) : ℝ :=
  Real.sqrt (v.x ^ 2 + v.y ^ 2 + v.z ^ 2)

/-- External dense 3×3 matrix primitive, row-major fields `aij` = entry at
row `i`, column `j` (1-based). -/
@[ext] structure M3 where
  a11 : ℝ
  a12 : ℝ
  a13 : ℝ
  a21 : ℝ
  a22 : ℝ
  a23 : ℝ
  a31 : ℝ
  a32 : ℝ
  a33 : ℝ

/-- Matrix product of two `M3`. -/
def M3.mul (A B : M3) : M3 :=
  ⟨A.a11 * B.a11 + A.a12 * B.a21 + A.a13 * B.a31,
   A.a11 * B.a12 + A.a12 * B.a22 + A.a13 * B.a32,
   A.a11 * B.a13 + A.a12 * B.a23 + A.a13 * B.a33,
   A.a21 * B.a11 + A.a22 * B.a21 + A.a23 * B.a31,
   A.a21 * B.a12 + A.a22 * B.a22 + A.a23 * B.a32,
   A.a21 * B.a13 + A.a22 * B.a23 + A.a23 * B.a33,
   A.a31 * B.a11 + A.a32 * B.a21 + A.a33 * B.a31,
   A.a31 * B.a12 + A.a32 * B.a22 + A.a33 * B.a32,
   A.a31 * B.a13 + A.a32 * B.a23 + A.a33 * B.a33⟩

/-- Identity matrix `eye(3)`. -/
def M3.one : M3 :=
  ⟨1, 0, 0, 0, 1, 0, 0, 0, 1⟩

/-- Componentwise sum. -/
def M3.add (A B : M3) : M3 :=
  ⟨A.a11 + B.a11, A.a12 + B.a12, A.a13 + B.a13,
   A.a21 + B.a21, A.a22 + B.a22, A.a23 + B.a23,
   A.a31 + B.a31, A.a32 + B.a32, A.a33 + B.a33⟩

/-- Componentwise difference. -/
def M3.sub (A B : M3) : M3 :=
  ⟨A.a11 - B.a11, A.a12 - B.a12, A.a13 - B.a13,
   A.a21 - B.a21, A.a22 - B.a22, A.a23 - B.a23,
   A.a31 - B.a31, A.a32 - B.a32, A.a33 - B.a33⟩

/-- Scalar multiple of a matrix. -/
def M3.smul (A : M3) (s : ℝ) : M3 :=
  ⟨s * A.a11, s * A.a12, s * A.a13,
   s * A.a21, s * A.a22, s * A.a23,
   s * A.a31, s * A.a32, s * A.a33⟩

/-- Matrix negation, `-matrix()` in the source. -/
def M3.neg (A : M3) : M3 :=
  A.smul (-1)

/-- Determinant of an `M3` (cofactor expansion along the first row). -/
def M3.det (A : M3) : ℝ :=
  A.a11 * (A.a22 * A.a33 - A.a23 * A.a32)
    - A.a12 * (A.a21 * A.a33 - A.a23 * A.a31)
    + A.a13 * (A.a21 * A.a32 - A.a22 * A.a31)

/-- Fixed-size 3×3 inverse (adjugate over determinant), the external
`inverse()` primitive of the dense-matrix library. -/
def M3.inv (A : M3) : M3 :=
  let d := A.det
  ⟨(A.a22 * A.a33 - A.a23 * A.a32) / d,
   -(A.a12 * A.a33 - A.a13 * A.a32) / d,
   (A.a12 * A.a23 - A.a13 * A.a22) / d,
   -(A.a21 * A.a33 - A.a23 * A.a31) / d,
   (A.a11 * A.a33 - A.a13 * A.a31) / d,
   -(A.a11 * A.a23 - A.a13 * A.a21) / d,
   (A.a21 * A.a32 - A.a22 * A.a31) / d,
   -(A.a11 * A.a32 - A.a12 * A.a31) / d,
   (A.a11 * A.a22 - A.a12 * A.a21) / d⟩

/-- `skewSymmetric(wx, wy, wz)` external primitive. -/
def skewSymmetric (wx wy wz : ℝ) : M3 :=
  ⟨0, -wz, wy, wz, 0, -wx, -wy, wx, 0⟩

/-- Modelled from the spec: the fixed-size Cayley-transform primitive
`Cayley<3>` consumed by the SLOW_CALEY paths lives outside this file's
source; per the spec it is the rational map (I − M)·(I + M)⁻¹, the form
that makes `retract(SLOW_CALEY)` agree with the fast CALEY closed form
(I + Ω/2)(I − Ω/2)⁻¹ at argument −Ω/2. -/
def Cayley (A : M3) : M3 :=
  M3.mul (M3.sub M3.one A) (M3.inv (M3.add M3.one A))

/-- Rotation: three column vectors `r1_, r2_, r3_` forming R = [r1|r2|r3],
exactly the storage of the source class. -/
@[ext] structure Rot3 where
  r1 : Point3
  r2 : Point3
  r3 : Point3

/-- Nine-scalar constructor: row-major input, stored column-wise
(source constructor at lines 44–49). -/
def Rot3.ofNine (R11 R12 R13 R21 R22 R23 R31 R32 R33 : ℝ) : Rot3 :=
  ⟨⟨R11, R21, R31⟩, ⟨R12, R22, R32⟩, ⟨R13, R23, R33⟩⟩

/-- Default constructor: the identity rotation. -/
def Rot3.identity : Rot3 :=
  ⟨⟨1, 0, 0⟩, ⟨0, 1, 0⟩, ⟨0, 0, 1⟩⟩

/-- Matrix constructor: columns read off the matrix (source lines 52–55). -/
def Rot3.ofM3 (R : M3) : Rot3 :=
  ⟨⟨R.a11, R.a21, R.a31⟩, ⟨R.a12, R.a22, R.a32⟩, ⟨R.a13, R.a23, R.a33⟩⟩

/-- Dense materialization `matrix()` (source lines 302–309). -/
def Rot3.matrix (R : Rot3) : M3 :=
  ⟨R.r1.x, R.r2.x, R.r3.x,
   R.r1.y, R.r2.y, R.r3.y,
   R.r1.z, R.r2.z, R.r3.z⟩

/-- Dense materialization `transpose()` (source lines 312–319). -/
def Rot3.transpose (R : Rot3) : M3 :=
  ⟨R.r1.x, R.r1.y, R.r1.z,
   R.r2.x, R.r2.y, R.r2.z,
   R.r3.x, R.r3.y, R.r3.z⟩

/-- Elementary rotation about the x axis (source lines 66–72). -/
def Rx (t : ℝ) : Rot3 :=
  Rot3.ofNine
    1 0 0
    0 (cos t) (-sin t)
    0 (sin t) (cos t)

/-- Elementary rotation about the y axis (source lines 75–81). -/
def Ry (t : ℝ) : Rot3 :=
  Rot3.ofNine
    (cos t) 0 (sin t)
    0 1 0
    (-sin t) 0 (cos t)

/-- Elementary rotation about the z axis (source lines 84–90). -/
def Rz (t : ℝ) : Rot3 :=
  Rot3.ofNine
    (cos t) (-sin t) 0
    (sin t) (cos t) 0
    0 0 1

/-- Fused three-axis factory (source lines 94–114), transcribed with the
same intermediate products. -/
def RzRyRx (x y z : ℝ) : Rot3 :=
  let cx := cos x
  let sx := sin x
  let cy := cos y
  let sy := sin y
  let cz := cos z
  let sz := sin z
  let ss_ := sx * sy
  let cs_ := cx * sy
  let sc_ := sx * cy
  let cc_ := cx * cy
  let c_s := cx * sz
  let s_s := sx * sz
  let _cs := cy * sz
  let _cc := cy * cz
  let s_c := sx * cz
  let c_c := cx * cz
  let ssc := ss_ * cz
  let csc := cs_ * cz
  let sss := ss_ * sz
  let css := cs_ * sz
  Rot3.ofNine
    _cc (-c_s + ssc) (s_s + csc)
    _cs (c_c + sss) (-s_c + css)
    (-sy) sc_ cc_

/-- Axis-angle factory `rodriguez(w, theta)` (source lines 117–137),
release behaviour: no unit-length check. -/
def rodriguez2 (w : V3) (theta : ℝ) : Rot3 :=
  let wx := w.x
  let wy := w.y
  let wz := w.z
  let wwTxx := wx * wx
  let wwTyy := wy * wy
  let wwTzz := wz * wz
  let c := cos theta
  let s := sin theta
  let c_1 := 1 - c
  let swx := wx * s
  let swy := wy * s
  let swz := wz * s
  let C00 := c_1 * wwTxx
  let C01 := c_1 * wx * wy
  let C02 := c_1 * wx * wz
  let C11 := c_1 * wwTyy
  let C12 := c_1 * wy * wz
  let C22 := c_1 * wwTzz
  Rot3.ofNine
    (c + C00) (-swz + C01) (swy + C02)
    (swz + C01) (c + C11) (-swx + C12)
    (-swy + C02) (swx + C12) (c + C22)

/-- Debug-build model of the axis-angle factory: the `#ifndef NDEBUG`
unit-length check of source lines 121–124 is explicit as a `debug` flag;
on failure it raises the domain error, otherwise it returns the release
result. -/
def rodriguezChecked (debug : Bool) (w : V3) (theta : ℝ) : Except String Rot3 :=
  let l_n := w.x * w.x + w.y * w.y + w.z * w.z
  if debug = true ∧ |l_n - 1| > 1e-9 then
    Except.error "rodriguez: length of n should be 1"
  else
    Except.ok (rodriguez2 w theta)

/-- Canonical-coordinates factory `rodriguez(w)` (source lines 140–144):
normalize, with an identity guard below 1e-10. -/
def rodriguez (w : V3) : Rot3 :=
  let t := w.norm
  if t < 1e-10 then Rot3.identity else rodriguez2 (w.div t) t

/-- Modelled from the spec: `Expmap` (declared outside this file's source)
is the exact exponential chart Δ = Rodrigues(ω), i.e. the normalizing
axis-angle factory. -/
def Expmap (w : V3) : Rot3 :=
  rodriguez w

/-- Group action on a point, `rotate` (source line 192, value part). -/
def Rot3.rotate (R : Rot3) (p : Point3) : Point3 :=
  Point3.add (Point3.add (R.r1.smul p.x) (R.r2.smul p.y)) (R.r3.smul p.z)

/-- Group product `operator*` (source lines 180–182): rotate the columns
of the right factor. -/
def Rot3.mul (A B : Rot3) : Rot3 :=
  ⟨A.rotate B.r1, A.rotate B.r2, A.rotate B.r3⟩

/-- `inverse()` value (source lines 163–169): the nine stored scalars
rearranged through the row-major constructor. -/
def Rot3.inverse (R : Rot3) : Rot3 :=
  Rot3.ofNine
    R.r1.x R.r1.y R.r1.z
    R.r2.x R.r2.y R.r2.z
    R.r3.x R.r3.y R.r3.z

/-- `inverse(H1)` with the Jacobian slot supplied: the slot is written
with `-matrix()` and the same value is returned (source lines 163–169). -/
def Rot3.inverseWithJac (R : Rot3) : Rot3 × M3 :=
  (R.inverse, M3.neg R.matrix)

/-- Modelled from the spec: `between_default` (defined outside this
file's source) is between(R1,R2) = R1⁻¹·R2, the inverse of the first
argument composed with the second; `between` (source lines 172–177)
delegates to it for its value. -/
def Rot3.between (R1 R2 : Rot3) : Rot3 :=
  Rot3.mul R1.inverse R2

/-- `column(index)` (source lines 322–331): branch order 3, 2, 1 as in
the source, invalid-argument failure otherwise. -/
def Rot3.column (R : Rot3) (index : ℤ) : Except String Point3 :=
  if index = 3 then Except.ok R.r3
  else if index = 2 then Except.ok R.r2
  else if index = 1 then Except.ok R.r1
  else Except.error "Argument to Rot3::column must be 1, 2, or 3"

/-- `Logmap` (source lines 211–246), with literal branch tolerances. -/
def Logmap (R : Rot3) : V3 :=
  let tr := R.r1.x + R.r2.y + R.r3.z
  if |tr + 1| < 1e-10 then
    if |R.r3.z + 1| > 1e-10 then
      V3.smul ⟨R.r3.x, R.r3.y, 1 + R.r3.z⟩ (π / Real.sqrt (2 + 2 * R.r3.z))
    else if |R.r2.y + 1| > 1e-10 then
      V3.smul ⟨R.r2.x, 1 + R.r2.y, R.r2.z⟩ (π / Real.sqrt (2 + 2 * R.r2.y))
    else
      V3.smul ⟨1 + R.r1.x, R.r1.y, R.r1.z⟩ (π / Real.sqrt (2 + 2 * R.r1.x))
  else
    let tr_3 := tr - 3
    let magnitude :=
      if tr_3 < -1e-7 then
        let theta := Real.arccos ((tr - 1) / 2)
        theta / (2 * Real.sin theta)
      else
        0.5 - tr_3 * tr_3 / 12
    V3.smul ⟨R.r2.z - R.r3.y, R.r3.x - R.r1.z, R.r1.y - R.r2.x⟩ magnitude

/-- The closed chart-mode enumeration of the source header. -/
inductive CoordinatesMode where
  | EXPMAP
  | CALEY
  | SLOW_CALEY

/-- `retract` (source lines 249–269): exponential chart, fast Cayley
closed form, or generic Cayley primitive at −Ω/2. -/
def retract (R : Rot3) (omega : V3) (mode : CoordinatesMode) : Rot3 :=
  match mode with
  | CoordinatesMode.EXPMAP => R.mul (Expmap omega)
  | CoordinatesMode.CALEY =>
    let x := omega.x
    let y := omega.y
    let z := omega.z
    let x2 := x * x
    let y2 := y * y
    let z2 := z * z
    let xy := x * y
    let xz := x * z
    let yz := y * z
    let f := 1 / (4 + x2 + y2 + z2)
    let _2f := 2 * f
    R.mul (Rot3.ofNine
      ((4 + x2 - y2 - z2) * f) ((xy - 2 * z) * _2f) ((xz + 2 * y) * _2f)
      ((xy + 2 * z) * _2f) ((4 - x2 + y2 - z2) * f) ((yz - 2 * x) * _2f)
      ((xz - 2 * y) * _2f) ((yz + 2 * x) * _2f) ((4 - x2 - y2 + z2) * f))
  | CoordinatesMode.SLOW_CALEY =>
    let Omega := skewSymmetric omega.x omega.y omega.z
    R.mul (Rot3.ofM3 (Cayley (Omega.smul (-(1 : ℝ) / 2))))

/-- `localCoordinates` (source lines 272–299). -/
def localCoordinates (R T : Rot3) (mode : CoordinatesMode) : V3 :=
  match mode with
  | CoordinatesMode.EXPMAP => Logmap (R.between T)
  | CoordinatesMode.CALEY =>
    let A := (R.between T).matrix
    let a := A.a11
    let b := A.a12
    let c := A.a13
    let d := A.a21
    let e := A.a22
    let f := A.a23
    let g := A.a31
    let h := A.a32
    let i := A.a33
    let di := d * i
    let ce := c * e
    let cd := c * d
    let fg := f * g
    let M := 1 + e - f * h + i + e * i
    let K := 2 / (cd * h + M + a * M - g * (c + ce) - b * (d + di - fg))
    let x := (a * f - cd + f) * K
    let y := (b * f - ce - c) * K
    let z := (fg - di - d) * K
    V3.smul ⟨x, y, z⟩ (-2)
  | CoordinatesMode.SLOW_CALEY =>
    let A := (R.between T).matrix
    let Omega := Cayley A
    V3.smul ⟨Omega.a32, Omega.a13, Omega.a21⟩ (-2)

/-- Four-quadrant arctangent with the C-library convention used by the
source's `atan2` (including atan2(0,0) = 0). -/
def atan2 (y x : ℝ) : ℝ :=
  if 0 < x then Real.arctan (y / x)
  else if x < 0 then
    (if 0 ≤ y then Real.arctan (y / x) + π else Real.arctan (y / x) - π)
  else if 0 < y then π / 2
  else if y < 0 then -(π / 2)
  else 0

/-- `RQ` decomposition (source lines 370–386). -/
def RQ (A : M3) : M3 × V3 :=
  let x := -atan2 (-A.a32) A.a33
  let Qx := (Rx (-x)).matrix
  let B := A.mul Qx
  let y := -atan2 B.a31 B.a33
  let Qy := (Ry (-y)).matrix
  let C := B.mul Qy
  let z := -atan2 (-C.a21) C.a22
  let Qz := (Rz (-z)).matrix
  let Rm := C.mul Qz
  (Rm, ⟨x, y, z⟩)

/-- Orthonormality of a stored rotation: Rᵗ·R = I, the data-model
invariant of a well-formed rotation. -/
def Rot3.IsRot (R : Rot3) : Prop :=
  M3.mul R.transpose R.matrix = M3.one

/-- Entrywise transpose on the external matrix type. -/
def M3.trans (A : M3) : M3 :=
  ⟨A.a11, A.a21, A.a31, A.a12, A.a22, A.a32, A.a13, A.a23, A.a33⟩

end

/-! ## General algebraic helper lemmas -/

theorem M3.mul_assoc (A B C : M3) :
    M3.mul (M3.mul A B) C = M3.mul A (M3.mul B C) := by
  ext <;> simp [M3.mul] <;> ring

theorem M3.one_mul (A : M3) : M3.mul M3.one A = A := by
  ext <;> simp [M3.mul, M3.one]

theorem M3.mul_one (A : M3) : M3.mul A M3.one = A := by
  ext <;> simp [M3.mul, M3.one]

theorem Rot3.matrix_mul (A B : Rot3) :
    (Rot3.mul A B).matrix = M3.mul A.matrix B.matrix := by
  ext <;> simp [Rot3.mul, Rot3.matrix, Rot3.rotate, Point3.add, Point3.smul, M3.mul] <;> ring

theorem Rot3.matrix_injective {A B : Rot3} (h : A.matrix = B.matrix) : A = B := by
  have h11 := congrArg M3.a11 h
  have h12 := congrArg M3.a12 h
  have h13 := congrArg M3.a13 h
  have h21 := congrArg M3.a21 h
  have h22 := congrArg M3.a22 h
  have h23 := congrArg M3.a23 h
  have h31 := congrArg M3.a31 h
  have h32 := congrArg M3.a32 h
  have h33 := congrArg M3.a33 h
  simp only [Rot3.matrix] at h11 h12 h13 h21 h22 h23 h31 h32 h33
  ext <;> assumption

theorem Rot3.inverse_matrix (R : Rot3) : R.inverse.matrix = R.transpose := by
  ext <;> simp [Rot3.inverse, Rot3.matrix, Rot3.transpose, Rot3.ofNine]

/-- With an orthonormal anchor, `between R (R·Δ)` recovers `Δ` exactly. -/
theorem Rot3.between_mul_cancel (R D : Rot3) (hR : R.IsRot) :
    R.between (R.mul D) = D := by
  have hR1 : M3.mul R.transpose R.matrix = M3.one := hR
  apply Rot3.matrix_injective
  rw [Rot3.between, Rot3.matrix_mul, Rot3.matrix_mul, Rot3.inverse_matrix,
    ← M3.mul_assoc, hR1, M3.one_mul]

/-! ## Claim theorems -/

/-- C5: for all angles x, y, z, the fused factory `RzRyRx(x,y,z)` produces
exactly the same rotation as the composed product `Rz(z)·Ry(y)·Rx(x)` of
the elementary-axis factories (over the reals the two formulas coincide
identically, so they agree within any floating tolerance). -/
theorem rzryrx_eq_composed (x y z : ℝ) :
    RzRyRx x y z = Rot3.mul (Rz z) (Rot3.mul (Ry y) (Rx x)) := by
  ext <;>
    simp [RzRyRx, Rot3.mul, Rot3.rotate, Rz, Ry, Rx, Rot3.ofNine,
      Point3.smul, Point3.add] <;>
    ring

/-- C6: for every rotation R, `inverse(R)` returns the transpose — its
matrix is the entrywise transpose of `matrix(R)` — and when the optional
Jacobian slot is supplied it is written with `-matrix(R)` while the same
value is returned. -/
theorem inverse_transpose_and_jacobian (R : Rot3) :
    R.inverse.matrix = M3.trans R.matrix ∧
    R.inverseWithJac.2 = M3.neg R.matrix ∧
    R.inverseWithJac.1 = R.inverse := by
  refine ⟨?_, rfl, rfl⟩
  ext <;> simp [Rot3.inverse, Rot3.matrix, Rot3.ofNine, M3.trans]

/-- C10: `inverse` is an exact involution — applying it twice returns the
original rotation entry-for-entry (the operation only rearranges the nine
stored scalars, so no arithmetic and no rounding is involved) — and
`matrix(inverse(R))` equals the source's `transpose(R)` exactly. -/
theorem inverse_exact_involution (R : Rot3) :
    R.inverse.inverse = R ∧ R.inverse.matrix = R.transpose := by
  constructor
  · ext <;> simp [Rot3.inverse, Rot3.ofNine]
  · exact Rot3.inverse_matrix R

/-- C7: `column(R,i)` returns r1, r2, r3 for i = 1, 2, 3 respectively and
fails with the invalid-argument error for every other index (in
particular i = 4); R itself is never modified (the operation is a pure
function of R). -/
theorem column_cases (R : Rot3) (i : ℤ) :
    R.column 1 = Except.ok R.r1 ∧
    R.column 2 = Except.ok R.r2 ∧
    R.column 3 = Except.ok R.r3 ∧
    (i ≠ 1 → i ≠ 2 → i ≠ 3 →
      R.column i = Except.error "Argument to Rot3::column must be 1, 2, or 3") := by
  refine ⟨by simp [Rot3.column], by simp [Rot3.column], by simp [Rot3.column], ?_⟩
  intro h1 h2 h3
  simp [Rot3.column, h1, h2, h3]

/-- C7 witness: at the concrete index 4 the failure fires. -/
theorem column_cases_witness :
    Rot3.identity.column 4 =
      Except.error "Argument to Rot3::column must be 1, 2, or 3" :=
  (column_cases Rot3.identity 4).2.2.2 (by decide) (by decide) (by decide)

/-- C8: the axis-angle factory raises the domain error exactly when the
build is a debug build and the squared axis length is farther than 1e-9
from 1; release builds never fail, and a unit axis never fails in any
build. -/
theorem rodriguez_debug_check (debug : Bool) (w : V3) (theta : ℝ) :
    ((∃ e, rodriguezChecked debug w theta = Except.error e) ↔
      (debug = true ∧ |w.x * w.x + w.y * w.y + w.z * w.z - 1| > 1e-9)) ∧
    (w.x * w.x + w.y * w.y + w.z * w.z = 1 →
      rodriguezChecked debug w theta = Except.ok (rodriguez2 w theta)) := by
  constructor
  · by_cases h : debug = true ∧ |w.x * w.x + w.y * w.y + w.z * w.z - 1| > 1e-9
    · simp only [rodriguezChecked, if_pos h]
      exact ⟨fun _ => h, fun _ => ⟨_, rfl⟩⟩
    · simp only [rodriguezChecked, if_neg h]
      constructor
      · rintro ⟨e, he⟩
        exact absurd he (by simp)
      · intro hc
        exact absurd hc h
  · intro h
    have hcond : ¬(debug = true ∧ |w.x * w.x + w.y * w.y + w.z * w.z - 1| > 1e-9) := by
      rintro ⟨-, habs⟩
      rw [h] at habs
      norm_num at habs
    simp only [rodriguezChecked, if_neg hcond]

/-- C8 witness: debug build, unit axis (1,0,0), angle 0 — no error. -/
theorem rodriguez_debug_check_witness :
    rodriguezChecked true ⟨1, 0, 0⟩ 0 = Except.ok (rodriguez2 ⟨1, 0, 0⟩ 0) :=
  (rodriguez_debug_check true ⟨1, 0, 0⟩ 0).2 (by norm_num)

/-- C9: in the Logmap π-branch (|tr+1| < 1e-10, orthonormal input) the
selected divisor √(2+2·Rᵢᵢ) is bounded away from zero: the first two
branches guard their own diagonal entries (radicand > 1e-10), and in the
final unguarded else-branch the three ≈ −1 conditions force R11 ≈ +1
(radicand ≥ 3), so the division is never by a value near zero. -/
theorem logmap_pi_branch_divisor (R : Rot3) (hR : R.IsRot)
    (htr : |R.r1.x + R.r2.y + R.r3.z + 1| < 1e-10) :
    (|R.r3.z + 1| > 1e-10 →
      1e-10 < 2 + 2 * R.r3.z ∧ 0 < Real.sqrt (2 + 2 * R.r3.z)) ∧
    (¬(|R.r3.z + 1| > 1e-10) → |R.r2.y + 1| > 1e-10 →
      1e-10 < 2 + 2 * R.r2.y ∧ 0 < Real.sqrt (2 + 2 * R.r2.y)) ∧
    (¬(|R.r3.z + 1| > 1e-10) → ¬(|R.r2.y + 1| > 1e-10) →
      3 ≤ 2 + 2 * R.r1.x ∧ 0 < Real.sqrt (2 + 2 * R.r1.x)) := by
  have hR1 : M3.mul R.transpose R.matrix = M3.one := hR
  have h22 := congrArg M3.a22 hR1
  have h33 := congrArg M3.a33 hR1
  simp only [M3.mul, Rot3.transpose, Rot3.matrix, M3.one] at h22 h33
  have hz1 : -1 ≤ R.r3.z := by nlinarith [sq_nonneg (R.r3.z + 1), sq_nonneg R.r3.x, sq_nonneg R.r3.y]
  have hy1 : -1 ≤ R.r2.y := by nlinarith [sq_nonneg (R.r2.y + 1), sq_nonneg R.r2.x, sq_nonneg R.r2.z]
  have htr' := abs_lt.mp htr
  refine ⟨?_, ?_, ?_⟩
  · intro h3
    have : R.r3.z + 1 > 1e-10 := by
      calc (1e-10 : ℝ) < |R.r3.z + 1| := h3
        _ = R.r3.z + 1 := abs_of_nonneg (by linarith)
    constructor
    · linarith
    · exact Real.sqrt_pos.mpr (by linarith)
  · intro _ h2
    have : R.r2.y + 1 > 1e-10 := by
      calc (1e-10 : ℝ) < |R.r2.y + 1| := h2
        _ = R.r2.y + 1 := abs_of_nonneg (by linarith)
    constructor
    · linarith
    · exact Real.sqrt_pos.mpr (by linarith)
  · intro h3 h2
    have h3' : |R.r3.z + 1| ≤ 1e-10 := not_lt.mp h3
    have h2' : |R.r2.y + 1| ≤ 1e-10 := not_lt.mp h2
    have h3'' := abs_le.mp h3'
    have h2'' := abs_le.mp h2'
    have hx : 3 ≤ 2 + 2 * R.r1.x := by
      have e1 : R.r1.x = (R.r1.x + R.r2.y + R.r3.z + 1) - (R.r2.y + 1) - (R.r3.z + 1) + 1 := by ring
      rw [e1]
      have := htr'.1
      have := h3''.2
      have := h2''.2
      norm_num at *
      linarith
    exact ⟨hx, Real.sqrt_pos.mpr (by linarith)⟩

/-- C9 witness: concrete orthonormal half-turn rotation diag(−1,−1,1);
the first branch fires and its divisor is positive. -/
theorem logmap_pi_branch_divisor_witness :
    0 < Real.sqrt (2 + 2 * (Rot3.ofNine (-1) 0 0 0 (-1) 0 0 0 1).r3.z) :=
  ((logmap_pi_branch_divisor (Rot3.ofNine (-1) 0 0 0 (-1) 0 0 0 1)
      (by show M3.mul _ _ = M3.one; ext <;> simp [M3.mul, Rot3.transpose, Rot3.matrix, Rot3.ofNine, M3.one])
      (by norm_num [Rot3.ofNine])).1
    (by norm_num [Rot3.ofNine])).2

/-- C4: when |tr+1| < 1e-10, Logmap picks the diagonal entry in fixed
priority order R33, R22, R11 (first not ≈ −1) and returns the matching
column of I+R scaled by π/√(2+2·Rᵢᵢ); Rodrigues((0,0,1),π) has matrix
exactly diag(−1,−1,1) and its Logmap is exactly the R33-branch output
(0,0,π). -/
theorem logmap_pi_branch_priority :
    (∀ R : Rot3, |R.r1.x + R.r2.y + R.r3.z + 1| < 1e-10 →
      Logmap R =
        if |R.r3.z + 1| > 1e-10 then
          V3.smul ⟨R.r3.x, R.r3.y, 1 + R.r3.z⟩ (π / Real.sqrt (2 + 2 * R.r3.z))
        else if |R.r2.y + 1| > 1e-10 then
          V3.smul ⟨R.r2.x, 1 + R.r2.y, R.r2.z⟩ (π / Real.sqrt (2 + 2 * R.r2.y))
        else
          V3.smul ⟨1 + R.r1.x, R.r1.y, R.r1.z⟩ (π / Real.sqrt (2 + 2 * R.r1.x))) ∧
    (rodriguez2 ⟨0, 0, 1⟩ π).matrix = ⟨-1, 0, 0, 0, -1, 0, 0, 0, 1⟩ ∧
    Logmap (rodriguez2 ⟨0, 0, 1⟩ π) = ⟨0, 0, π⟩ := by
  have hrod : rodriguez2 ⟨0, 0, 1⟩ π = Rot3.ofNine (-1) 0 0 0 (-1) 0 0 0 1 := by
    ext <;> simp [rodriguez2, Rot3.ofNine, Real.cos_pi, Real.sin_pi]
  have hsq : Real.sqrt (2 + 2 * (1 : ℝ)) = 2 := by
    rw [show (2 + 2 * (1 : ℝ)) = 2 ^ 2 by norm_num, Real.sqrt_sq (by norm_num)]
  refine ⟨?_, ?_, ?_⟩
  · intro R h
    simp only [Logmap]
    rw [if_pos h]
  · rw [hrod]
    ext <;> simp [Rot3.matrix, Rot3.ofNine]
  · rw [hrod]
    simp only [Logmap, Rot3.ofNine]
    rw [if_pos (by norm_num), if_pos (by norm_num)]
    have hsq4 : Real.sqrt 4 = 2 := by
      rw [show (4 : ℝ) = 2 ^ 2 by norm_num, Real.sqrt_sq (by norm_num)]
    ext <;> norm_num [V3.smul, hsq4] <;> ring_nf

/-- C4 witness: the priority rule applied at the concrete matrix
diag(−1,−1,1): the R33 branch fires. -/
theorem logmap_pi_branch_priority_witness :
    Logmap (Rot3.ofNine (-1) 0 0 0 (-1) 0 0 0 1) =
      V3.smul ⟨0, 0, 1 + 1⟩ (π / Real.sqrt (2 + 2 * 1)) := by
  have h := logmap_pi_branch_priority.1 (Rot3.ofNine (-1) 0 0 0 (-1) 0 0 0 1)
    (by norm_num [Rot3.ofNine])
  rw [h, if_pos (by norm_num [Rot3.ofNine])]
  norm_num [Rot3.ofNine, V3.smul]

theorem Rx_neg_mul (t : ℝ) :
    M3.mul ((Rx (-t)).matrix) ((Rx t).matrix) = M3.one := by
  ext <;>
    simp [Rx, Rot3.matrix, Rot3.ofNine, M3.mul, M3.one, Real.cos_neg, Real.sin_neg] <;>
    nlinarith [Real.sin_sq_add_cos_sq t]

theorem Ry_neg_mul (t : ℝ) :
    M3.mul ((Ry (-t)).matrix) ((Ry t).matrix) = M3.one := by
  ext <;>
    simp [Ry, Rot3.matrix, Rot3.ofNine, M3.mul, M3.one, Real.cos_neg, Real.sin_neg] <;>
    nlinarith [Real.sin_sq_add_cos_sq t]

theorem Rz_neg_mul (t : ℝ) :
    M3.mul ((Rz (-t)).matrix) ((Rz t).matrix) = M3.one := by
  ext <;>
    simp [Rz, Rot3.matrix, Rot3.ofNine, M3.mul, M3.one, Real.cos_neg, Real.sin_neg] <;>
    nlinarith [Real.sin_sq_add_cos_sq t]

/-- Undoing the three elimination steps of RQ, for arbitrary input and
arbitrary angles. -/
theorem rq_unwind (B : M3) (x y z : ℝ) :
    M3.mul (M3.mul (M3.mul
      (M3.mul (M3.mul (M3.mul B ((Rx (-x)).matrix)) ((Ry (-y)).matrix)) ((Rz (-z)).matrix))
      ((Rz z).matrix)) ((Ry y).matrix)) ((Rx x).matrix) = B := by
  have h1 : M3.mul (M3.mul (M3.mul (M3.mul B ((Rx (-x)).matrix)) ((Ry (-y)).matrix))
      ((Rz (-z)).matrix)) ((Rz z).matrix)
      = M3.mul (M3.mul B ((Rx (-x)).matrix)) ((Ry (-y)).matrix) := by
    rw [M3.mul_assoc, Rz_neg_mul, M3.mul_one]
  rw [h1]
  have h2 : M3.mul (M3.mul (M3.mul B ((Rx (-x)).matrix)) ((Ry (-y)).matrix)) ((Ry y).matrix)
      = M3.mul B ((Rx (-x)).matrix) := by
    rw [M3.mul_assoc, Ry_neg_mul, M3.mul_one]
  rw [h2, M3.mul_assoc, Rx_neg_mul, M3.mul_one]

/-- C1 counterexample: at the concrete input A = [[0,-1,0],[0,0,1],[-1,0,0]]
(a rotation matrix, hence near-orthogonal and invertible), the product in
the claimed order R·Rx(x)·Ry(y)·Rz(z) differs from A in entry (1,2) by a
full unit — far outside any floating tolerance — so RQ is not a
factorization in that order. -/
theorem rq_claimed_order_fails :
    |(M3.mul (M3.mul (M3.mul
        (RQ ⟨0, -1, 0, 0, 0, 1, -1, 0, 0⟩).1
        ((Rx (RQ ⟨0, -1, 0, 0, 0, 1, -1, 0, 0⟩).2.x).matrix))
        ((Ry (RQ ⟨0, -1, 0, 0, 0, 1, -1, 0, 0⟩).2.y).matrix))
        ((Rz (RQ ⟨0, -1, 0, 0, 0, 1, -1, 0, 0⟩).2.z).matrix)).a12
      - (-1 : ℝ)| > 1 / 2 := by
  have hRQ : RQ ⟨0, -1, 0, 0, 0, 1, -1, 0, 0⟩ = (M3.one, ⟨0, π / 2, π / 2⟩) := by
    norm_num [RQ, atan2, Rx, Ry, Rz, Rot3.matrix, Rot3.ofNine, M3.mul, M3.one,
      Real.cos_neg, Real.sin_neg, Real.cos_zero, Real.sin_zero,
      Real.cos_pi_div_two, Real.sin_pi_div_two, Real.pi_pos,
      M3.ext_iff, Prod.ext_iff, V3.ext_iff]
  rw [hRQ]
  norm_num [Rx, Ry, Rz, Rot3.matrix, Rot3.ofNine, M3.mul, M3.one,
    Real.cos_zero, Real.sin_zero, Real.cos_pi_div_two, Real.sin_pi_div_two]

/-- C1 (amended): RQ(A) returns (R,(x,y,z)) with A = R·Rz(z)·Ry(y)·Rx(x)
— exactly, over the reals, for every 3×3 input A (the claim's factor
order Rx·Ry·Rz is reversed; the elimination steps multiply on the right
by Rx(−x), Ry(−y), Rz(−z) in that order, so they are undone in the
opposite order). -/
theorem rq_reverse_factorization (A : M3) :
    M3.mul (M3.mul (M3.mul (RQ A).1
      ((Rz (RQ A).2.z).matrix)) ((Ry (RQ A).2.y).matrix)) ((Rx (RQ A).2.x).matrix) = A := by
  simp only [RQ]
  exact rq_unwind A _ _ _

end Gtsam
